import Mathlib

/-!
Shallow embedding of the trading-signals dashboard core:
the Position Ledger (`calculateProfit` in the dashboard component),
the Trade Executor (trade-creation block of `onMessage`),
the Signal Generator (`generateSignal` in the mock socket module),
the bounded price history (`onMessage` price-history update),
and the timeframe-change handler (`handleTimeframeSelect`).

JavaScript numbers are modelled as exact rationals (ℚ) and instants as ℤ
(milliseconds since epoch, the value of `Date.now()`).  Division in ℚ
follows Lean's convention `x / 0 = 0`; wherever the source can actually
divide by zero this is noted at the theorem concerned.
-/

namespace TradingSignals

/-- The `"BUY" | "SELL" | "HOLD"` string union used by `Signal.type` and
(restricted to the first two by the TypeScript type) by `Trade.type`. -/
inductive SigType where
  | BUY
  | SELL
  | HOLD
  deriving DecidableEq, Repr

/-- `Signal = { type, price, timestamp }` from the dashboard component. -/
structure Signal where
  type : SigType
  price : ℚ
  timestamp : ℤ
  deriving DecidableEq, Repr

/-- `Trade = { type, price, timestamp, quantity }` from the dashboard
component.  The TypeScript type restricts `type` to `"BUY" | "SELL"`; the
runtime value is the same string union, so we reuse `SigType` (the ledger's
`else if` chain ignores a `HOLD` entry, matching the source). -/
structure Trade where
  type : SigType
  price : ℚ
  timestamp : ℤ
  quantity : ℕ
  deriving DecidableEq, Repr

/-- One entry of `priceHistory`: `{ price, timestamp }`. -/
structure PricePoint where
  price : ℚ
  timestamp : ℤ
  deriving DecidableEq, Repr

/-- `StockData` from the dashboard component. -/
structure StockData where
  symbol : String
  name : String
  currentPrice : ℚ
  previousPrice : ℚ
  change : ℚ
  changePercent : ℚ
  deriving DecidableEq, Repr

/-! ## Position Ledger: `calculateProfit` -/

/-- The local accumulator variables of `calculateProfit`:
`currentProfit`, `position`, `averageEntryPrice`, `totalInvested`,
`totalReturned`. -/
structure LedgerState where
  currentProfit : ℚ
  position : ℚ
  averageEntryPrice : ℚ
  totalInvested : ℚ
  totalReturned : ℚ
  deriving DecidableEq, Repr

/-- The initial values of the accumulators: all zero. -/
def initLedger : LedgerState :=
  { currentProfit := 0, position := 0, averageEntryPrice := 0,
    totalInvested := 0, totalReturned := 0 }

/-- The body of the `tradeList.forEach` loop in `calculateProfit`:
BUY adds `newCost = price * quantity` to `totalInvested`, sets
`averageEntryPrice = (averageEntryPrice * position + newCost) / (position + newShares)`
(computed before `position += newShares`), and adds the quantity to
`position`; SELL adds `saleValue = price * quantity` to `totalReturned`,
adds `saleValue - averageEntryPrice * quantity` to `currentProfit`, and
subtracts the quantity from `position`.  A `HOLD` entry falls through the
`else if` chain and changes nothing. -/
def applyTrade (s : LedgerState) (t : Trade) : LedgerState :=
  match t.type with
  | .BUY =>
      let newShares : ℚ := t.quantity
      let newCost : ℚ := t.price * newShares
      let totalShares : ℚ := s.position + newShares
      { s with
        totalInvested := s.totalInvested + newCost,
        averageEntryPrice := (s.averageEntryPrice * s.position + newCost) / totalShares,
        position := s.position + newShares }
  | .SELL =>
      let saleValue : ℚ := t.price * t.quantity
      let costBasis : ℚ := s.averageEntryPrice * t.quantity
      { s with
        totalReturned := s.totalReturned + saleValue,
        currentProfit := s.currentProfit + (saleValue - costBasis),
        position := s.position - t.quantity }
  | .HOLD => s

/-- The full replay of `calculateProfit` over the trade log. -/
def replay (tradeList : List Trade) : LedgerState :=
  tradeList.foldl applyTrade initLedger

/-- The combined profit figure of `calculateProfit` (the value passed to
`setProfit`): the replayed `currentProfit`, plus the unrealized term
`(currentPrice - averageEntryPrice) * position` only when `position > 0`. -/
def combinedProfit (tradeList : List Trade) (currentPrice : ℚ) : ℚ :=
  let s := replay tradeList
  if 0 < s.position then
    s.currentProfit + (currentPrice - s.averageEntryPrice) * s.position
  else
    s.currentProfit

/-- The percentage figure of `calculateProfit` (the value passed to
`setProfitPercent`): `((totalReturned + position * currentPrice) - initialInvestment)
/ initialInvestment * 100`, computed unconditionally — the source has no
guard on `initialInvestment`. -/
def profitPercent (tradeList : List Trade) (currentPrice initialInvestment : ℚ) : ℚ :=
  let s := replay tradeList
  let totalValue := s.totalReturned + s.position * currentPrice
  (totalValue - initialInvestment) / initialInvestment * 100

/-- `calculateProfit` as a pair: the profit and the percentage it stores. -/
def calculateProfit (tradeList : List Trade) (currentPrice initialInvestment : ℚ) :
    ℚ × ℚ :=
  (combinedProfit tradeList currentPrice,
   profitPercent tradeList currentPrice initialInvestment)

/-- Sum of the quantities of a trade log, as a rational. -/
def totalQty (tradeList : List Trade) : ℚ :=
  (tradeList.map fun t => (t.quantity : ℚ)).sum

/-- Sum of `price * quantity` over a trade log. -/
def totalCost (tradeList : List Trade) : ℚ :=
  (tradeList.map fun t => t.price * (t.quantity : ℚ)).sum

/-- The sequence of accumulator states the `forEach` loop of
`calculateProfit` passes through, the state before the first trade first. -/
def replayStates (s : LedgerState) : List Trade → List LedgerState
  | [] => [s]
  | t :: ts => s :: replayStates (applyTrade s t) ts

/-- The §4.3 SELL precondition over the replay: every SELL trade satisfies
`quantity ≤ position` at its position in the replay, starting from `s`. -/
def sellsCovered (s : LedgerState) : List Trade → Bool
  | [] => true
  | t :: ts =>
      (if t.type = SigType.SELL then decide ((t.quantity : ℚ) ≤ s.position) else true)
        && sellsCovered (applyTrade s t) ts

/-- Strict positivity of the divisor `position + quantity` of every BUY
weighted-average update along the replay, starting from `s`. -/
def buyDivisorsPos (s : LedgerState) : List Trade → Bool
  | [] => true
  | t :: ts =>
      (if t.type = SigType.BUY then decide (0 < s.position + (t.quantity : ℚ)) else true)
        && buyDivisorsPos (applyTrade s t) ts

/-! ## Signal Generator: `generateSignal` (mock socket module) -/

/-- The inline classification block of `generateSignal`: with a uniform
draw `random` in `[0,1)`, `random < 0.15` classifies BUY, else
`random < 0.3` classifies SELL, else HOLD. -/
def classify (random : ℚ) : SigType :=
  if random < 15 / 100 then .BUY
  else if random < 3 / 10 then .SELL
  else .HOLD

/-- The rate-limit guard `lastSignalTime && Date.now() - lastSignalTime < 5000`.
JavaScript truthiness makes a stored time of `0` behave as unset, hence the
`t != 0` conjunct; `now` is the value of `Date.now()` during this call. -/
def rateLimited (lastSignalTime : Option ℤ) (now : ℤ) : Bool :=
  match lastSignalTime with
  | none => false
  | some t => t != 0 && decide (now - t < 5000)

/-- The de-duplication guard `lastSignal && signalType === lastSignal.type`
(an object is always truthy, `null` is falsy). -/
def sameAsLast (lastSignal : Option Signal) (signalType : SigType) : Bool :=
  match lastSignal with
  | none => false
  | some ls => signalType == ls.type

/-- `generateSignal(stockData, lastSignal, lastSignalTime)` from the mock
socket module, with the two impure reads made explicit: `random` is the
`Math.random()` draw and `now` the value of `Date.now()` during the call.
Returns `none` when rate-limited, classifies the draw, returns `none` when
the classified kind repeats `lastSignal.type`, and otherwise emits
`{ type, price: stockData.currentPrice, timestamp: now }`. -/
def generateSignal (currentPrice : ℚ) (lastSignal : Option Signal)
    (lastSignalTime : Option ℤ) (random : ℚ) (now : ℤ) : Option Signal :=
  if rateLimited lastSignalTime now then none
  else
    let signalType := classify random
    if sameAsLast lastSignal signalType then none
    else some { type := signalType, price := currentPrice, timestamp := now }

/-- One iteration's inputs to the mock feed loop: the evolved current price,
the `Math.random()` draw and the `Date.now()` instant of the iteration. -/
structure TickInput where
  price : ℚ
  random : ℚ
  now : ℤ
  deriving DecidableEq, Repr

/-- The mock feed loop's threading of `lastSignal` / `lastSignalTime`
(`if (signal) { lastSignal = signal; lastSignalTime = signal.timestamp }`),
collecting the emitted signals in order. -/
def runTicks (lastSignal : Option Signal) (lastSignalTime : Option ℤ) :
    List TickInput → List Signal
  | [] => []
  | i :: rest =>
      match generateSignal i.price lastSignal lastSignalTime i.random i.now with
      | none => runTicks lastSignal lastSignalTime rest
      | some sig => sig :: runTicks (some sig) (some sig.timestamp) rest

/-! ## Trade Executor: the trade-creation block of `onMessage` -/

/-- The auto-execute block of `onMessage`: when `data.signal.type !== "HOLD"`,
builds `{ type: data.signal.type, price: data.stockData.currentPrice,
timestamp: Date.now(), quantity: 1 }`; on HOLD no trade is created.
`currentPrice` is the message's `stockData.currentPrice` and `now` the value
of `Date.now()` at trade creation. -/
def executeTrade (sig : Signal) (currentPrice : ℚ) (now : ℤ) : Option Trade :=
  if sig.type ≠ SigType.HOLD then
    some { type := sig.type, price := currentPrice, timestamp := now, quantity := 1 }
  else none

/-! ## Bounded price history: the `setPriceHistory` update of `onMessage` -/

/-- `setPriceHistory((prev) => [...prev, point].slice(-100))`: append and keep
the last 100 entries (`slice(-100)` keeps the final 100 elements, or all of
them when fewer). -/
def appendPriceHistory (prev : List PricePoint) (point : PricePoint) : List PricePoint :=
  let l := prev ++ [point]
  l.drop (l.length - 100)

/-- Delivering a sequence of ticks to an initially empty history, applying
the `onMessage` price-history update for each. -/
def deliverAll (ticks : List PricePoint) : List PricePoint :=
  ticks.foldl appendPriceHistory []

/-! ## Session state and `handleTimeframeSelect` -/

/-- The `useState` cells of the dashboard component that make up a session. -/
structure DashboardState where
  selectedStock : Option String
  stockData : Option StockData
  connected : Bool
  signal : Option Signal
  trades : List Trade
  profit : ℚ
  profitPercent : ℚ
  initialInvestment : ℚ
  priceHistory : List PricePoint
  signalHistory : List Signal
  timeframe : String
  useMockData : Bool
  deriving DecidableEq, Repr

/-- `handleTimeframeSelect(newTimeframe)`: sets the timeframe and resets
`priceHistory` and `signalHistory` to `[]`; every other state cell —
in particular `trades`, `profit` and `profitPercent` — is untouched. -/
def handleTimeframeSelect (s : DashboardState) (newTimeframe : String) : DashboardState :=
  { s with timeframe := newTimeframe, priceHistory := [], signalHistory := [] }

/-! ## Theorems -/

/-- Quantity sums are non-negative. -/
lemma totalQty_nonneg (l : List Trade) : 0 ≤ totalQty l := by
  induction l with
  | nil => simp [totalQty]
  | cons t ts ih =>
      have hq : (0 : ℚ) ≤ (t.quantity : ℚ) := Nat.cast_nonneg _
      simp only [totalQty, List.map_cons, List.sum_cons] at ih ⊢
      linarith

/-- Quantity sums over a non-empty log of positive quantities are positive. -/
lemma totalQty_pos (t : Trade) (ts : List Trade)
    (hpos : ∀ u ∈ t :: ts, 0 < u.quantity) : 0 < totalQty (t :: ts) := by
  have hq : (0 : ℚ) < (t.quantity : ℚ) :=
    Nat.cast_pos.mpr (hpos t (List.mem_cons_self t ts))
  have hrest := totalQty_nonneg ts
  simp only [totalQty, List.map_cons, List.sum_cons] at hrest ⊢
  linarith

/-- Invariant of the `calculateProfit` replay over a BUY-only log with
positive quantities, started at any state with non-negative position:
the position grows by the total quantity and the cost-weighted product
`averageEntryPrice * position` grows by the total cost. -/
lemma replay_buys_invariant (tradeList : List Trade) :
    ∀ s : LedgerState, (∀ t ∈ tradeList, t.type = SigType.BUY) →
      (∀ t ∈ tradeList, 0 < t.quantity) → 0 ≤ s.position →
      (tradeList.foldl applyTrade s).position = s.position + totalQty tradeList ∧
      (tradeList.foldl applyTrade s).averageEntryPrice *
          (tradeList.foldl applyTrade s).position
        = s.averageEntryPrice * s.position + totalCost tradeList := by
  induction tradeList with
  | nil =>
      intro s _ _ _
      simp [totalQty, totalCost]
  | cons t ts ih =>
      intro s hbuy hpos hs
      have ht : t.type = SigType.BUY := hbuy t (List.mem_cons_self t ts)
      have hq : (0 : ℚ) < (t.quantity : ℚ) :=
        Nat.cast_pos.mpr (hpos t (List.mem_cons_self t ts))
      have hdiv : s.position + (t.quantity : ℚ) ≠ 0 := by linarith
      have hs' : (applyTrade s t).position = s.position + (t.quantity : ℚ) := by
        simp [applyTrade, ht]
      have havg : (applyTrade s t).averageEntryPrice *
          (applyTrade s t).position
          = s.averageEntryPrice * s.position + t.price * (t.quantity : ℚ) := by
        simp only [applyTrade, ht, hs']
        rw [div_mul_cancel₀ _ hdiv]
      have hrec := ih (applyTrade s t)
        (fun u hu => hbuy u (List.mem_cons_of_mem t hu))
        (fun u hu => hpos u (List.mem_cons_of_mem t hu))
        (by rw [hs']; linarith)
      constructor
      · rw [List.foldl_cons, hrec.1, hs']
        simp only [totalQty, List.map_cons, List.sum_cons]
        ring
      · rw [List.foldl_cons, hrec.2, havg]
        simp only [totalCost, List.map_cons, List.sum_cons]
        ring

/-- C1: the Position Ledger recompute replays the log in order from the
all-zero initial state; each BUY adds `price * quantity` to `totalInvested`,
updates the weighted average with divisor `position + quantity`, and adds
the quantity to the position; each SELL adds `price * quantity` to
`totalReturned`, adds `price * quantity - averageEntryPrice * quantity` to
the realized P&L accumulator, and subtracts the quantity; a BUY-only log of
positive quantities yields `position = Σ qᵢ` and
`averageEntryPrice = Σ qᵢ pᵢ / Σ qᵢ`; and the log [BUY 1@100, SELL 1@120]
at current price 120 yields combined profit 20 with the final position 0,
so no unrealized term is added. -/
theorem C1_ledger_replay :
    (initLedger.currentProfit = 0 ∧ initLedger.position = 0 ∧
      initLedger.averageEntryPrice = 0 ∧ initLedger.totalInvested = 0 ∧
      initLedger.totalReturned = 0)
    ∧ (∀ (s : LedgerState) (p : ℚ) (ts : ℤ) (q : ℕ),
        applyTrade s ⟨SigType.BUY, p, ts, q⟩ =
          { currentProfit := s.currentProfit,
            position := s.position + (q : ℚ),
            averageEntryPrice :=
              (s.averageEntryPrice * s.position + p * (q : ℚ)) / (s.position + (q : ℚ)),
            totalInvested := s.totalInvested + p * (q : ℚ),
            totalReturned := s.totalReturned })
    ∧ (∀ (s : LedgerState) (p : ℚ) (ts : ℤ) (q : ℕ),
        applyTrade s ⟨SigType.SELL, p, ts, q⟩ =
          { currentProfit := s.currentProfit + (p * (q : ℚ) - s.averageEntryPrice * (q : ℚ)),
            position := s.position - (q : ℚ),
            averageEntryPrice := s.averageEntryPrice,
            totalInvested := s.totalInvested,
            totalReturned := s.totalReturned + p * (q : ℚ) })
    ∧ (∀ tradeList : List Trade, (∀ t ∈ tradeList, t.type = SigType.BUY) →
        (∀ t ∈ tradeList, 0 < t.quantity) →
        (replay tradeList).position = totalQty tradeList ∧
        (replay tradeList).averageEntryPrice = totalCost tradeList / totalQty tradeList)
    ∧ (combinedProfit [⟨SigType.BUY, 100, 0, 1⟩, ⟨SigType.SELL, 120, 1, 1⟩] 120 = 20 ∧
        (replay [⟨SigType.BUY, 100, 0, 1⟩, ⟨SigType.SELL, 120, 1, 1⟩]).position = 0) := by
  refine ⟨⟨rfl, rfl, rfl, rfl, rfl⟩, ?_, ?_, ?_,
    by norm_num [combinedProfit, replay, applyTrade, initLedger],
    by norm_num [replay, applyTrade, initLedger]⟩
  · intro s p ts q
    rfl
  · intro s p ts q
    rfl
  · intro tradeList hbuy hpos
    have hinv := replay_buys_invariant tradeList initLedger hbuy hpos (le_refl 0)
    have hpos0 : (replay tradeList).position = totalQty tradeList := by
      simpa [replay, initLedger] using hinv.1
    refine ⟨hpos0, ?_⟩
    cases tradeList with
    | nil => simp [replay, initLedger, totalQty, totalCost]
    | cons t ts =>
        have hq : 0 < totalQty (t :: ts) := totalQty_pos t ts hpos
        have hprod : (replay (t :: ts)).averageEntryPrice * (replay (t :: ts)).position
            = totalCost (t :: ts) := by
          simpa [replay, initLedger] using hinv.2
        rw [eq_div_iff (ne_of_gt hq)]
        rw [← hpos0]
        exact hprod

/-- Witness for C1: a BUY-only log [BUY 2@100, BUY 3@110] satisfies the
hypotheses, has position 5 and average entry price (200 + 330) / 5 = 106. -/
theorem C1_ledger_replay_witness :
    (replay [⟨SigType.BUY, 100, 0, 2⟩, ⟨SigType.BUY, 110, 1, 3⟩]).position
        = totalQty [⟨SigType.BUY, 100, 0, 2⟩, ⟨SigType.BUY, 110, 1, 3⟩] ∧
    (replay [⟨SigType.BUY, 100, 0, 2⟩, ⟨SigType.BUY, 110, 1, 3⟩]).averageEntryPrice
        = totalCost [⟨SigType.BUY, 100, 0, 2⟩, ⟨SigType.BUY, 110, 1, 3⟩]
          / totalQty [⟨SigType.BUY, 100, 0, 2⟩, ⟨SigType.BUY, 110, 1, 3⟩] :=
  C1_ledger_replay.2.2.2.1
    [⟨SigType.BUY, 100, 0, 2⟩, ⟨SigType.BUY, 110, 1, 3⟩]
    (by decide) (by decide)

/-- C2: evaluation of the code at the failing input.  The ledger replay has
no insufficient-position check: on the log [SELL 1@100] the `forEach` loop
silently drives `position` to −1, below zero, instead of detecting and
rejecting the SELL (no `InsufficientPositionError` exists anywhere in the
source). -/
theorem C2_sell_goes_negative :
    (replay [⟨SigType.SELL, 100, 0, 1⟩]).position = -1 ∧
    (replay [⟨SigType.SELL, 100, 0, 1⟩]).position < 0 := by
  norm_num [replay, applyTrade, initLedger]

/-- C3: evaluation of the code at the failing input.  `calculateProfit`
applies the percentage formula `(totalValue - initialInvestment) /
initialInvestment * 100` unconditionally — there is no guard on
`initialInvestment`, so the first conjunct holds for every value of it,
including zero and negative ones.  At `initialInvestment = 0` the source
divides by zero (JavaScript: `Infinity`); in this exact-arithmetic model
the division-by-zero convention returns the junk value 0, and either way a
numeric snapshot is produced where the claim requires an
`InvalidConfiguration` signal. -/
theorem C3_no_investment_guard :
    (∀ (tradeList : List Trade) (currentPrice initialInvestment : ℚ),
        profitPercent tradeList currentPrice initialInvestment
          = ((replay tradeList).totalReturned + (replay tradeList).position * currentPrice
              - initialInvestment) / initialInvestment * 100)
    ∧ calculateProfit [⟨SigType.BUY, 100, 0, 1⟩] 110 0 = (10, 0) := by
  constructor
  · intro tradeList currentPrice initialInvestment
    rfl
  · norm_num [calculateProfit, combinedProfit, profitPercent, replay,
      applyTrade, initLedger]

/-- C9: whenever the replayed position ends at or below zero, the
`if (position > 0)` guard of `calculateProfit` skips the unrealized term,
so the combined profit equals the accumulated realized P&L alone and does
not depend on the current price. -/
theorem C9_flat_position_price_independent
    (tradeList : List Trade) (p1 p2 : ℚ)
    (h : (replay tradeList).position ≤ 0) :
    combinedProfit tradeList p1 = (replay tradeList).currentProfit ∧
    combinedProfit tradeList p1 = combinedProfit tradeList p2 := by
  have hnot : ¬ 0 < (replay tradeList).position := not_lt.mpr h
  constructor <;> simp [combinedProfit, hnot]

/-- Witness for C9: the closed log [BUY 1@100, SELL 1@120] ends flat, and
its combined profit is the realized 20 at current price 50 and at 500
alike. -/
theorem C9_flat_position_witness :
    (replay [⟨SigType.BUY, 100, 0, 1⟩, ⟨SigType.SELL, 120, 1, 1⟩]).position ≤ 0 ∧
    (combinedProfit [⟨SigType.BUY, 100, 0, 1⟩, ⟨SigType.SELL, 120, 1, 1⟩] 50
        = (replay [⟨SigType.BUY, 100, 0, 1⟩, ⟨SigType.SELL, 120, 1, 1⟩]).currentProfit ∧
      combinedProfit [⟨SigType.BUY, 100, 0, 1⟩, ⟨SigType.SELL, 120, 1, 1⟩] 50
        = combinedProfit [⟨SigType.BUY, 100, 0, 1⟩, ⟨SigType.SELL, 120, 1, 1⟩] 500) :=
  have h : (replay [⟨SigType.BUY, 100, 0, 1⟩, ⟨SigType.SELL, 120, 1, 1⟩]).position ≤ 0 := by
    norm_num [replay, applyTrade, initLedger]
  ⟨h, C9_flat_position_price_independent
        [⟨SigType.BUY, 100, 0, 1⟩, ⟨SigType.SELL, 120, 1, 1⟩] 50 500 h⟩

/-- C4 counterexample: a message whose signal records price 100 and
timestamp 1000 but whose `stockData.currentPrice` is 110, processed at
`Date.now() = 2000`, yields a trade with price 110 and timestamp 2000 —
not the signal's price and timestamp as the claim states. -/
theorem C4_trade_fields_counterexample :
    executeTrade ⟨SigType.BUY, 100, 1000⟩ 110 2000
        = some ⟨SigType.BUY, 110, 2000, 1⟩ ∧
    ¬ executeTrade ⟨SigType.BUY, 100, 1000⟩ 110 2000
        = some ⟨SigType.BUY, 100, 1000, 1⟩ := by
  have h1 : executeTrade ⟨SigType.BUY, 100, 1000⟩ 110 2000
      = some ⟨SigType.BUY, 110, 2000, 1⟩ := rfl
  refine ⟨h1, ?_⟩
  intro h
  rw [h1] at h
  have h2 : (110 : ℚ) = 100 := congrArg Trade.price (Option.some.inj h)
  norm_num at h2

/-- C4 amended: the trade-creation block returns none exactly on HOLD, and
otherwise a trade carrying the signal's kind, the message's
`stockData.currentPrice`, the processing-time `Date.now()` value, and
quantity 1. -/
theorem C4_trade_creation (sig : Signal) (currentPrice : ℚ) (now : ℤ) :
    executeTrade sig currentPrice now
      = if sig.type = SigType.HOLD then none
        else some { type := sig.type, price := currentPrice,
                    timestamp := now, quantity := 1 } := by
  by_cases h : sig.type = SigType.HOLD <;> simp [executeTrade, h]

/-- C5: a timeframe change clears the tick history and signal history, and
leaves the trade log, the stored P&L figures, and hence any subsequent
`calculateProfit` recompute unchanged; in particular a session holding two
trades still holds exactly those two trades afterwards. -/
theorem C5_timeframe_preserves_ledger :
    (∀ (s : DashboardState) (tf : String),
        (handleTimeframeSelect s tf).trades = s.trades ∧
        (handleTimeframeSelect s tf).profit = s.profit ∧
        (handleTimeframeSelect s tf).profitPercent = s.profitPercent ∧
        (handleTimeframeSelect s tf).priceHistory = [] ∧
        (handleTimeframeSelect s tf).signalHistory = [] ∧
        (∀ currentPrice initialInvestment : ℚ,
          calculateProfit (handleTimeframeSelect s tf).trades currentPrice initialInvestment
            = calculateProfit s.trades currentPrice initialInvestment))
    ∧ (handleTimeframeSelect
        { selectedStock := some "AAPL", stockData := none, connected := true,
          signal := none,
          trades := [⟨SigType.BUY, 100, 0, 1⟩, ⟨SigType.SELL, 120, 1, 1⟩],
          profit := 20, profitPercent := 2, initialInvestment := 10000,
          priceHistory := [⟨120, 1⟩], signalHistory := [⟨SigType.SELL, 120, 1⟩],
          timeframe := "5m", useMockData := true } "4h").trades
      = [⟨SigType.BUY, 100, 0, 1⟩, ⟨SigType.SELL, 120, 1, 1⟩] := by
  exact ⟨fun s tf => ⟨rfl, rfl, rfl, rfl, rfl, fun _ _ => rfl⟩, rfl⟩

/-- One `slice(-100)` append never leaves more than 100 entries. -/
lemma appendPriceHistory_length_le (prev : List PricePoint) (p : PricePoint) :
    (appendPriceHistory prev p).length ≤ 100 := by
  simp only [appendPriceHistory, List.length_drop, List.length_append,
    List.length_cons, List.length_nil]
  omega

/-- Folding the `onMessage` price-history update over any tick sequence,
from any starting history of at most 100 entries, keeps exactly the final
100 elements of starting history plus delivered ticks. -/
lemma foldl_appendPriceHistory (ticks : List PricePoint) :
    ∀ s : List PricePoint, s.length ≤ 100 →
      List.foldl appendPriceHistory s ticks
        = (s ++ ticks).drop ((s ++ ticks).length - 100) := by
  induction ticks with
  | nil =>
      intro s hs
      simp [Nat.sub_eq_zero_of_le hs]
  | cons t ts ih =>
      intro s hs
      rw [List.foldl_cons, ih (appendPriceHistory s t) (appendPriceHistory_length_le s t)]
      have hdef : appendPriceHistory s t
          = (s ++ [t]).drop ((s.length + 1) - 100) := by
        simp [appendPriceHistory]
      rw [hdef]
      have hle : (s.length + 1) - 100 ≤ (s ++ [t]).length := by
        simp only [List.length_append, List.length_cons, List.length_nil]
        omega
      rw [← List.drop_append_of_le_length hle, List.drop_drop]
      simp only [List.length_drop, List.length_append, List.length_cons,
        List.length_nil, List.append_assoc, List.singleton_append]
      have harith : ∀ a b : ℕ, a = b →
          (s ++ t :: ts).drop a = (s ++ t :: ts).drop b := fun a b h => by rw [h]
      exact harith _ _ (by omega)

/-- A concrete run of 101 ticks, price and timestamp both equal to the
tick's index. -/
def ticks101 : List PricePoint :=
  (List.range 101).map fun (i : ℕ) => { price := (i : ℚ), timestamp := (i : ℤ) }

/-- C8: after any sequence of delivered ticks the price history holds at
most 100 entries, namely exactly the most recent delivered ticks in order
(the oldest are dropped first); after the concrete run of 101 ticks it
holds exactly the most recent 100. -/
theorem C8_price_history_bounded :
    (∀ ticks : List PricePoint,
        (deliverAll ticks).length ≤ 100 ∧
        deliverAll ticks = ticks.drop (ticks.length - 100))
    ∧ ticks101.length = 101
    ∧ deliverAll ticks101 = ticks101.drop 1 := by
  have hgen : ∀ ticks : List PricePoint,
      deliverAll ticks = ticks.drop (ticks.length - 100) := by
    intro ticks
    have := foldl_appendPriceHistory ticks [] (by simp)
    simpa [deliverAll] using this
  have hlen : ticks101.length = 101 := by simp [ticks101]
  refine ⟨fun ticks => ⟨?_, hgen ticks⟩, hlen, ?_⟩
  · rw [hgen ticks, List.length_drop]
    omega
  · rw [hgen ticks101, hlen]

/-- Anatomy of an emitted signal: whenever `generateSignal` returns a
signal, it carries the classified kind, the current price and the `now`
instant, and the de-duplication guard was false for the classified kind. -/
lemma generateSignal_some (currentPrice : ℚ) (lastSignal : Option Signal)
    (lastSignalTime : Option ℤ) (random : ℚ) (now : ℤ) (sig : Signal)
    (h : generateSignal currentPrice lastSignal lastSignalTime random now = some sig) :
    sig = ⟨classify random, currentPrice, now⟩ ∧
      sameAsLast lastSignal (classify random) = false := by
  unfold generateSignal at h
  by_cases hrl : rateLimited lastSignalTime now = true
  · simp [hrl] at h
  · simp only [Bool.not_eq_true] at hrl
    simp only [hrl, Bool.false_eq_true, if_false] at h
    by_cases hdup : sameAsLast lastSignal (classify random) = true
    · simp [hdup] at h
    · simp only [Bool.not_eq_true] at hdup
      simp only [hdup, Bool.false_eq_true, if_false, Option.some.injEq] at h
      exact ⟨h.symm, hdup⟩

/-- An emitted signal's kind never repeats the kind of the `lastSignal`
reference in force when it was generated. -/
lemma generateSignal_some_ne_last (currentPrice : ℚ) (ls : Signal)
    (lastSignalTime : Option ℤ) (random : ℚ) (now : ℤ) (sig : Signal)
    (h : generateSignal currentPrice (some ls) lastSignalTime random now = some sig) :
    sig.type ≠ ls.type := by
  obtain ⟨hsig, hdup⟩ := generateSignal_some _ _ _ _ _ _ h
  subst hsig
  simp only [sameAsLast, beq_eq_false_iff_ne, ne_eq] at hdup
  simpa using hdup

/-- Along the mock feed loop, consecutive emitted signals differ in kind,
and the first emitted signal differs in kind from any initial `lastSignal`
reference. -/
lemma runTicks_chain (ticks : List TickInput) :
    ∀ (ls : Option Signal) (lt : Option ℤ),
      List.Chain' (fun a b => a.type ≠ b.type) (runTicks ls lt ticks) ∧
      (∀ (s0 sig : Signal), ls = some s0 →
        (runTicks ls lt ticks).head? = some sig → sig.type ≠ s0.type) := by
  induction ticks with
  | nil =>
      intro ls lt
      simp [runTicks]
  | cons i rest ih =>
      intro ls lt
      cases hgen : generateSignal i.price ls lt i.random i.now with
      | none =>
          simp only [runTicks, hgen]
          exact ih ls lt
      | some sig =>
          simp only [runTicks, hgen]
          have ihrec := ih (some sig) (some sig.timestamp)
          constructor
          · rw [List.chain'_cons']
            refine ⟨?_, ihrec.1⟩
            intro y hy
            exact (ihrec.2 sig y rfl (by simpa using hy)).symm
          · intro s0 sig' hls hhead
            have hsig' : sig' = sig := by
              simpa using hhead.symm
            subst hsig'
            subst hls
            exact generateSignal_some_ne_last _ _ _ _ _ _ hgen

/-- C6: the de-duplication rule of `generateSignal` — a classified kind
equal to `lastSignal.type` yields no signal (HOLD included, since the guard
compares kinds only), so along any run of the mock feed loop (which updates
the last-signal reference with each emitted signal) no two consecutively
emitted signals share a kind; concretely, with draws classified [BUY, BUY]
on ticks 6 seconds apart only the first BUY is emitted, and with
[BUY, SELL] both are emitted. -/
theorem C6_signal_dedup :
    (∀ (currentPrice : ℚ) (ls : Signal) (lastSignalTime : Option ℤ)
        (random : ℚ) (now : ℤ),
        classify random = ls.type →
        generateSignal currentPrice (some ls) lastSignalTime random now = none)
    ∧ (∀ (ticks : List TickInput) (ls : Option Signal) (lt : Option ℤ),
        List.Chain' (fun a b => a.type ≠ b.type) (runTicks ls lt ticks))
    ∧ runTicks none none [⟨100, 1/10, 1000000⟩, ⟨101, 1/10, 1006000⟩]
        = [⟨SigType.BUY, 100, 1000000⟩]
    ∧ runTicks none none [⟨100, 1/10, 1000000⟩, ⟨101, 1/5, 1006000⟩]
        = [⟨SigType.BUY, 100, 1000000⟩, ⟨SigType.SELL, 101, 1006000⟩] := by
  refine ⟨?_, fun ticks ls lt => (runTicks_chain ticks ls lt).1, ?_, ?_⟩
  · intro currentPrice ls lastSignalTime random now hk
    unfold generateSignal
    by_cases hrl : rateLimited lastSignalTime now = true
    · simp [hrl]
    · simp only [Bool.not_eq_true] at hrl
      have hdup : sameAsLast (some ls) (classify random) = true := by
        simp [sameAsLast, hk]
      simp [hrl, hdup]
  · norm_num [runTicks, generateSignal, rateLimited, sameAsLast, classify]
  · norm_num [runTicks, generateSignal, rateLimited, sameAsLast, classify]
    rfl

/-- Witness for C6: two consecutive HOLD classifications also suppress —
with the last signal a HOLD and a draw of 1/2 (classified HOLD), the
generator returns none. -/
theorem C6_signal_dedup_witness :
    classify (1/2) = SigType.HOLD ∧
    generateSignal 100 (some ⟨SigType.HOLD, 99, 0⟩) none (1/2) 10 = none :=
  ⟨by norm_num [classify],
   C6_signal_dedup.1 100 ⟨SigType.HOLD, 99, 0⟩ none (1/2) 10 (by norm_num [classify])⟩

/-- C7: the rate limit of `generateSignal` — with a non-zero stored
`lastSignalTime` (JavaScript truthiness treats 0 as unset; stored values
are `Date.now()` instants, which are positive) and the current instant less
than 5000 ms after it, no signal is generated, whatever the draw. -/
theorem C7_rate_limit (currentPrice : ℚ) (lastSignal : Option Signal)
    (t : ℤ) (random : ℚ) (now : ℤ)
    (ht : t ≠ 0) (hlt : now - t < 5000) :
    generateSignal currentPrice lastSignal (some t) random now = none := by
  have hrl : rateLimited (some t) now = true := by
    simp [rateLimited, ht, hlt]
  simp [generateSignal, hrl]

/-- Witness for C7: a signal at instant 1000000 and a tick 3 seconds later
(instant 1003000) — the second `generate` call returns none. -/
theorem C7_rate_limit_witness :
    (1000000 : ℤ) ≠ 0 ∧ (1003000 : ℤ) - 1000000 < 5000 ∧
    generateSignal 100 (some ⟨SigType.BUY, 100, 1000000⟩) (some 1000000)
        (1/2) 1003000 = none :=
  ⟨by norm_num, by norm_num,
   C7_rate_limit 100 (some ⟨SigType.BUY, 100, 1000000⟩) 1000000 (1/2) 1003000
     (by norm_num) (by norm_num)⟩

/-- Invariant of the covered-SELL replay: from any state with non-negative
position, if every SELL is covered and every quantity is positive, then the
position stays non-negative through every intermediate state and every BUY
divisor `position + quantity` is strictly positive. -/
lemma replay_covered_invariant (tradeList : List Trade) :
    ∀ s : LedgerState, sellsCovered s tradeList = true →
      (∀ t ∈ tradeList, 0 < t.quantity) → 0 ≤ s.position →
      (∀ st ∈ replayStates s tradeList, 0 ≤ st.position) ∧
      buyDivisorsPos s tradeList = true := by
  induction tradeList with
  | nil =>
      intro s _ _ hs
      refine ⟨?_, rfl⟩
      intro st hst
      simp only [replayStates, List.mem_singleton] at hst
      rw [hst]
      exact hs
  | cons t ts ih =>
      intro s hcov hq hs
      simp only [sellsCovered, Bool.and_eq_true] at hcov
      obtain ⟨hcov1, hcovrest⟩ := hcov
      have hqt : (0 : ℚ) < (t.quantity : ℚ) :=
        Nat.cast_pos.mpr (hq t (List.mem_cons_self t ts))
      have hnext : 0 ≤ (applyTrade s t).position := by
        cases hty : t.type with
        | BUY =>
            simp only [applyTrade, hty]
            linarith
        | SELL =>
            have hcovered : (t.quantity : ℚ) ≤ s.position := by
              simpa [hty] using hcov1
            simp only [applyTrade, hty]
            linarith
        | HOLD => simpa [applyTrade, hty] using hs
      have ihrec := ih (applyTrade s t) hcovrest
        (fun u hu => hq u (List.mem_cons_of_mem t hu)) hnext
      constructor
      · intro st hst
        simp only [replayStates, List.mem_cons] at hst
        rcases hst with h | h
        · rw [h]; exact hs
        · exact ihrec.1 st h
      · simp only [buyDivisorsPos, Bool.and_eq_true]
        refine ⟨?_, ihrec.2⟩
        cases hty : t.type with
        | BUY =>
            have hpos : (0 : ℚ) < s.position + (t.quantity : ℚ) := by linarith
            simp [hty, hpos]
        | SELL => simp [hty]
        | HOLD => simp [hty]

/-- C10: under the §4.3 SELL precondition — every SELL covered by the
position at its point in the replay — and with the data model's positive
quantities, the replayed position never goes negative and every BUY
weighted-average divisor `position + quantity` is strictly positive, so the
average-entry-price division never divides by zero; without the
precondition the divisor can reach zero: after the uncovered SELL in
[SELL 1@100, BUY 1@50] the position is −1, the arriving BUY of quantity 1
makes the divisor exactly 0, and the divisor-positivity check fails. -/
theorem C10_sell_precondition_no_div_by_zero :
    (∀ tradeList : List Trade,
        sellsCovered initLedger tradeList = true →
        (∀ t ∈ tradeList, 0 < t.quantity) →
        (∀ st ∈ replayStates initLedger tradeList, 0 ≤ st.position) ∧
        buyDivisorsPos initLedger tradeList = true)
    ∧ ((applyTrade initLedger ⟨SigType.SELL, 100, 0, 1⟩).position + (1 : ℚ) = 0 ∧
        buyDivisorsPos initLedger
          [⟨SigType.SELL, 100, 0, 1⟩, ⟨SigType.BUY, 50, 1, 1⟩] = false) := by
  refine ⟨?_, ?_, ?_⟩
  · intro tradeList hcov hq
    exact replay_covered_invariant tradeList initLedger hcov hq (le_refl 0)
  · norm_num [applyTrade, initLedger]
  · norm_num [buyDivisorsPos, applyTrade, initLedger]

/-- Witness for C10: the log [BUY 2@100, SELL 1@120, SELL 1@110] satisfies
the SELL precondition and the positive-quantity hypothesis, so every
intermediate position is non-negative and every BUY divisor positive. -/
theorem C10_sell_precondition_witness :
    sellsCovered initLedger
        [⟨SigType.BUY, 100, 0, 2⟩, ⟨SigType.SELL, 120, 1, 1⟩,
          ⟨SigType.SELL, 110, 2, 1⟩] = true ∧
    ((∀ st ∈ replayStates initLedger
          [⟨SigType.BUY, 100, 0, 2⟩, ⟨SigType.SELL, 120, 1, 1⟩,
            ⟨SigType.SELL, 110, 2, 1⟩], 0 ≤ st.position) ∧
      buyDivisorsPos initLedger
          [⟨SigType.BUY, 100, 0, 2⟩, ⟨SigType.SELL, 120, 1, 1⟩,
            ⟨SigType.SELL, 110, 2, 1⟩] = true) :=
  have hcov : sellsCovered initLedger
      [⟨SigType.BUY, 100, 0, 2⟩, ⟨SigType.SELL, 120, 1, 1⟩,
        ⟨SigType.SELL, 110, 2, 1⟩] = true := by
    norm_num [sellsCovered, applyTrade, initLedger]
    decide
  ⟨hcov,
   C10_sell_precondition_no_div_by_zero.1
     [⟨SigType.BUY, 100, 0, 2⟩, ⟨SigType.SELL, 120, 1, 1⟩,
       ⟨SigType.SELL, 110, 2, 1⟩] hcov (by decide)⟩

end TradingSignals
